import Mathlib

/-! Blizzard API client: region resolution and the authorized GET

A shallow embedding of `blizzard.go` (package `blizzard`):

* `Region` and its constants, `Config`, and the constructor `New`;
* `getURLBody`, the authorized GET, as a function from an explicit
  environment (token check, URL parser, HTTP transport) to the values it
  returns together with the trace of effects it performed.

Strings are Lean strings, byte slices are lists of bytes, a nilable Go value
is an `Option`, and the pointer receiver `c *Config` is passed and returned
explicitly.
-/

namespace Blizzard

/-! ## Data model -/

/-- A Go `error` value; `none : Option GoError` is the nil error. -/
structure GoError where
  msg : String
  deriving DecidableEq, Repr

/-- Go `errors.New`: always a non-nil error carrying the given text. -/
def errorsNew (text : String) : GoError := ⟨text⟩

/-- A byte slice. -/
abbrev Bytes := List (Fin 256)

/-- An instant of `time.Time`, in nanoseconds on the wall clock. -/
abbrev Time := Int

/-- A `time.Duration`, in nanoseconds. -/
abbrev Duration := Int

/-- The constant `time.Second`. -/
def timeSecond : Duration := 1000000000

/-- The fields of `http.Client` that `New` sets. -/
structure Client where
  Timeout : Duration
  deriving DecidableEq, Repr

/-- Modelled from the spec: the type `AccessTokenRequest` is declared outside
`blizzard.go`; its fields are the three values the OAuth response carries
(`access_token`, `token_type`, `expires_in`). Go zero values are the
defaults. -/
structure AccessTokenRequest where
  AccessToken : String := ""
  TokenType : String := ""
  ExpiresIn : Int := 0
  deriving DecidableEq, Repr

/-- Modelled from the spec: the type `OAuth` is declared outside
`blizzard.go`; it has the three fields `New` initialises and the field
`AccessTokenRequest` that `getURLBody` reads. -/
structure OAuth where
  ClientID : String
  ClientSecret : String
  AccessTokenRequest : AccessTokenRequest := {}
  ExpiresAt : Time
  deriving DecidableEq, Repr

/-- The type `Region` is Go `int`. -/
abbrev Region := Int

/-- The blank first constant of the block, `_ Region = iota`. -/
def regionUnset : Region := 0

/-- Region constant `US` (iota 1). -/
def US : Region := 1

/-- Region constant `EU` (iota 2). -/
def EU : Region := 2

/-- Region constant `KR` (iota 3). -/
def KR : Region := 3

/-- Region constant `TW` (iota 4). -/
def TW : Region := 4

/-- Region constant `CN` (iota 5). -/
def CN : Region := 5

/-- The struct `Config`. -/
structure Config where
  client : Client
  oauth : OAuth
  region : Region
  oauthURL : String := ""
  apiURL : String := ""
  locale : String := ""
  deriving DecidableEq, Repr

/-! ## `New` -/

/-- The function `New`. The reading of the clock by `time.Now()` is the
argument `now`. The `switch` is written as the chain of comparisons Go
evaluates, in the order of the source. -/
def New (now : Time) (clientID clientSecret : String) (region : Region) : Config :=
  let c : Config :=
    { client := { Timeout := timeSecond * 60 }
      oauth := { ClientID := clientID, ClientSecret := clientSecret, ExpiresAt := now }
      region := region }
  if c.region = CN then
    { c with oauthURL := "https://www.battle.net.cn"
             apiURL := "https://api.blizzard.com.cn"
             locale := "zh_CN" }
  else if c.region = EU then
    { c with oauthURL := "https://eu.battle.net"
             apiURL := "https://eu.api.blizzard.com"
             locale := "en_GB" }
  else if c.region = KR then
    { c with oauthURL := "https://kr.battle.net"
             apiURL := "https://kr.api.blizzard.com"
             locale := "ko_KR" }
  else if c.region = TW then
    { c with oauthURL := "https://tb.battle.net"
             apiURL := "https://tb.api.blizzard.com"
             locale := "zh_TW" }
  else if c.region = US then
    { c with oauthURL := "https://us.battle.net"
             apiURL := "https://us.api.blizzard.com"
             locale := "en_US" }
  else -- USA! USA!
    { c with oauthURL := "https://us.battle.net"
             apiURL := "https://us.api.blizzard.com"
             locale := "en_US" }

/-- The three endpoint strings of a `Config`. -/
def Config.endpoints (c : Config) : String × String × String :=
  (c.oauthURL, c.apiURL, c.locale)

/-- Modelled from the spec: the refresh test of `updateAccessTokenIfExp`,
which is defined outside `blizzard.go`; section 4.2 gives it as
`now >= token.expiresAt`. -/
def refreshDue (o : OAuth) (now : Time) : Bool :=
  decide (now ≥ o.ExpiresAt)

/-! ## The pieces of `net/http` that `getURLBody` calls -/

/-- The token characters of HTTP (`httpguts.IsTokenRune`,
`textproto.validHeaderFieldByte`): letters, digits and fifteen marks. -/
def isTokenChar (ch : Char) : Bool :=
  ch.isAlphanum || "!#$%&'*+-.^_`|~".toList.contains ch

/-- The loop of `textproto.canonicalMIMEHeaderKey`: a letter is put in upper
case at the start and after each dash, in lower case elsewhere. -/
def canonLoop : Bool → List Char → List Char
  | _, [] => []
  | upper, ch :: rest =>
    let ch := if upper && ch.isLower then ch.toUpper
              else if !upper && ch.isUpper then ch.toLower
              else ch
    ch :: canonLoop (ch == '-') rest

/-- Go `textproto.CanonicalMIMEHeaderKey`: a key with a character that is not
a token character is returned unchanged. -/
def canonicalMIMEHeaderKey (key : String) : String :=
  if key.toList.all isTokenChar then String.mk (canonLoop true key.toList) else key

/-- An `http.Header`: canonical keys with their values. -/
abbrev Header := List (String × List String)

/-- Go `Header.Set`: the values of the canonical key are replaced by the
single given value. -/
def Header.Set (h : Header) (key value : String) : Header :=
  (canonicalMIMEHeaderKey key, [value]) ::
    h.filter (fun kv => kv.1 != canonicalMIMEHeaderKey key)

/-- Go `Header.Values`: all values of the canonical key. -/
def Header.Values (h : Header) (key : String) : List String :=
  match h.find? (fun kv => kv.1 == canonicalMIMEHeaderKey key) with
  | some kv => kv.2
  | none => []

/-- Go `Header.Get`: the first value of the canonical key, or the empty
string. -/
def Header.Get (h : Header) (key : String) : String :=
  (Header.Values h key).headD ""

/-- A parsed `url.URL`, kept as the text it was parsed from. -/
structure URL where
  text : String
  deriving DecidableEq, Repr

/-- The fields of `http.Request` that `getURLBody` sets or hands on. -/
structure Request where
  Method : String
  URL : URL
  Header : Header
  deriving DecidableEq, Repr

/-- The body of a response as seen by its reader: the bytes it holds up to
its end, the error (if any) that interrupts the reading before EOF, the
number of bytes delivered before that error, and the outcome of `Close`. -/
structure Body where
  content : Bytes
  readErr : Option GoError := none
  readErrAt : Nat := 0
  closeErr : Option GoError := none
  deriving DecidableEq, Repr

/-- The fields of `http.Response` that `getURLBody` reads. -/
structure Response where
  StatusCode : Int
  Status : String
  Body : Body
  deriving DecidableEq, Repr

/-- The constant `http.StatusNotFound`. -/
def StatusNotFound : Int := 404

/-- Go `ioutil.ReadAll`: reads until EOF or an error and returns what was
read with the error; EOF is not reported as an error. A body without a read
error is delivered whole; a read error leaves the bytes behind it unread. -/
def ReadAll (b : Body) : Bytes × Option GoError :=
  match b.readErr with
  | none => (b.content, none)
  | some err => (b.content.take b.readErrAt, some err)

/-- What `getURLBody` is run against. `updateAccessTokenIfExp` is the method
of `Config` defined outside `blizzard.go` (it may change the `Config` and may
fail); `urlParse` is `url.Parse`; `clientDo` is `(*http.Client).Do`. -/
structure Env where
  updateAccessTokenIfExp : Config → Config × Option GoError
  urlParse : String → Except GoError URL
  clientDo : Client → Request → Except GoError Response

/-- Go `http.validMethod`: not empty and made of token characters. -/
def validMethod (method : String) : Bool :=
  method.length > 0 && method.toList.all isTokenChar

/-- Go `http.NewRequest` with a nil body: the method is checked, the URL is
parsed, and the request starts with an empty header. -/
def NewRequest (env : Env) (method url : String) : Except GoError Request :=
  let method := if method = "" then "GET" else method
  if !validMethod method then
    .error (errorsNew ("net/http: invalid method " ++ method.quote))
  else
    match env.urlParse url with
    | .error e => .error e
    | .ok u => .ok { Method := method, URL := u, Header := [] }

/-! ## `getURLBody` -/

/-- An effect of `getURLBody` on the transport or on the response body. -/
inductive Effect where
  /-- The call `c.client.Do(req)`. -/
  | clientDo (req : Request)
  /-- The call `ioutil.ReadAll(res.Body)`, with the bytes it read and the
  error it returned (nil when it reached EOF). -/
  | readAll (b : Body) (got : Bytes) (err : Option GoError)
  /-- The call `res.Body.Close()`. -/
  | close (b : Body)
  deriving DecidableEq, Repr

/-- The state in which a call of `getURLBody` returns: the `Config` behind
the receiver, the two results, the local variable `err`, and the effects
performed, oldest first. -/
structure Exit where
  cfg : Config
  body : Option Bytes
  err : Option GoError
  errLocal : Option GoError
  trace : List Effect
  deriving DecidableEq, Repr

/-- The deferred closure of `getURLBody`. It runs when a `return` has already
set the two results, which are unnamed: its assignment `err = res.Body.Close()`
reaches the local variable only, and both branches of its `if` return. -/
def deferredClose (res : Response) (x : Exit) : Exit :=
  { x with errLocal := res.Body.closeErr
           trace := x.trace ++ [Effect.close res.Body] }

/-- The method `getURLBody`. -/
def getURLBody (env : Env) (c : Config) (url : String) : Exit :=
  match env.updateAccessTokenIfExp c with
  | (c, some err) =>
    { cfg := c, body := none, err := some err, errLocal := some err, trace := [] }
  | (c, none) =>
    match NewRequest env "GET" url with
    | .error err =>
      { cfg := c, body := none, err := some err, errLocal := some err, trace := [] }
    | .ok req =>
      let req : Request :=
        { req with
          Header := Header.Set req.Header "Authorization"
            ("Bearer " ++ c.oauth.AccessTokenRequest.AccessToken) }
      let req : Request :=
        { req with Header := Header.Set req.Header "Accept" "application/json" }
      match env.clientDo c.client req with
      | .error err =>
        { cfg := c, body := none, err := some err, errLocal := some err,
          trace := [Effect.clientDo req] }
      | .ok res =>
        deferredClose res <|
          match ReadAll res.Body with
          | (body, some err) =>
            { cfg := c, body := none, err := some err, errLocal := some err,
              trace := [Effect.clientDo req, Effect.readAll res.Body body (some err)] }
          | (body, none) =>
            if res.StatusCode = StatusNotFound then
              { cfg := c, body := none, err := some (errorsNew res.Status),
                errLocal := none,
                trace := [Effect.clientDo req, Effect.readAll res.Body body none] }
            else
              { cfg := c, body := some body, err := none, errLocal := none,
                trace := [Effect.clientDo req, Effect.readAll res.Body body none] }

/-- The request `getURLBody` hands to the transport, given the `Config` left
by the token check and the request `NewRequest` returned: the two header
assignments of the source applied in their order. -/
def requestFor (c : Config) (req : Request) : Request :=
  let req : Request :=
    { req with
      Header := Header.Set req.Header "Authorization"
        ("Bearer " ++ c.oauth.AccessTokenRequest.AccessToken) }
  { req with Header := Header.Set req.Header "Accept" "application/json" }

/-- The requests handed to the transport in a trace, oldest first. -/
def requestsSent (t : List Effect) : List Request :=
  t.filterMap (fun e => match e with | Effect.clientDo req => some req | _ => none)

/-- How many times the transport was invoked in a trace. -/
def countDo (t : List Effect) : Nat :=
  (t.filter (fun e => match e with | Effect.clientDo _ => true | _ => false)).length

/-- How many times a body was closed in a trace. -/
def countClose (t : List Effect) : Nat :=
  (t.filter (fun e => match e with | Effect.close _ => true | _ => false)).length

/-- The effects of a trace that touch a response body. -/
def bodyEffects (t : List Effect) : List Effect :=
  t.filter (fun e => match e with | Effect.clientDo _ => false | _ => true)

/-- The body `b` is fully drained in a trace: a `ReadAll` on it delivered
all of its bytes and ended at EOF. -/
def drained (b : Body) (t : List Effect) : Prop :=
  Effect.readAll b b.content none ∈ t

instance (b : Body) (t : List Effect) : Decidable (drained b t) := by
  unfold drained; infer_instance

/-- The bytes of the body `b` that the reads of a trace consumed. -/
def bytesRead (b : Body) (t : List Effect) : Bytes :=
  (t.filterMap (fun e =>
    match e with
    | Effect.readAll b1 got _ => if b1 = b then some got else none
    | _ => none)).flatten

/-- The status text that `net/http` gives a response it has read: the
three-digit code first. -/
def statusLineOf (res : Response) : Prop :=
  (toString res.StatusCode).toList <+: res.Status.toList

instance (res : Response) : Decidable (statusLineOf res) := by
  unfold statusLineOf; infer_instance

/-! ### A concrete environment, for evaluating the definitions -/

/-- A token check that always succeeds and installs the token `tok`. -/
def grantToken (tok : String) (c : Config) : Config × Option GoError :=
  ({ c with oauth := { c.oauth with
      AccessTokenRequest := { c.oauth.AccessTokenRequest with AccessToken := tok } } }, none)

/-- A parser that accepts every URL. -/
def parseAny (url : String) : Except GoError URL := .ok ⟨url⟩

/-- An environment with the token check `tc` whose transport answers every
request with `ans`. -/
def envWith (tc : Config → Config × Option GoError)
    (ans : Except GoError Response) : Env :=
  { updateAccessTokenIfExp := tc, urlParse := parseAny, clientDo := fun _ _ => ans }

/-- A token check that always fails with `e` and leaves the `Config` alone. -/
def denyToken (e : GoError) (c : Config) : Config × Option GoError :=
  (c, some e)

/-- A `Config` fresh from `New`. -/
def cfg0 : Config := New 1000 "id" "secret" EU

/-- The `Config` `cfg0` once `grantToken "tok"` has run. -/
def cfg1 : Config := (grantToken "tok" cfg0).1

/-- The request `NewRequest` builds for the URL `https://eu.api.blizzard.com/data`. -/
def req0 : Request :=
  { Method := "GET", URL := ⟨"https://eu.api.blizzard.com/data"⟩, Header := [] }

/-- A 404 response with a body and a failing `Close`. -/
def res404 : Response :=
  { StatusCode := 404, Status := "404 Not Found"
    Body := { content := [110, 111], closeErr := some ⟨"close failed"⟩ } }

/-- A 500 response with a body and a failing `Close`. -/
def res500 : Response :=
  { StatusCode := 500, Status := "500 Internal Server Error"
    Body := { content := [111, 111, 112, 115], closeErr := some ⟨"close failed"⟩ } }

/-- A 200 response whose body of two bytes fails after the first one. -/
def resCut : Response :=
  { StatusCode := 200, Status := "200 OK"
    Body := { content := [123, 125], readErr := some ⟨"unexpected EOF"⟩, readErrAt := 1 } }

end Blizzard

namespace Blizzard

/-! ## Evaluation lemmas -/

/-- The keys `getURLBody` sets are already canonical. -/
theorem canonical_keys :
    canonicalMIMEHeaderKey "Authorization" = "Authorization" ∧
      canonicalMIMEHeaderKey "Accept" = "Accept" := by
  constructor <;> decide

/-- The method `GET` passes `validMethod`. -/
theorem validMethod_GET : validMethod "GET" = true := by decide

/-- Under a failing token check `getURLBody` returns at its first `return`. -/
theorem getURLBody_of_token_error (env : Env) (c c1 : Config) (url : String) (e : GoError)
    (htok : env.updateAccessTokenIfExp c = (c1, some e)) :
    getURLBody env c url =
      { cfg := c1, body := none, err := some e, errLocal := some e, trace := [] } := by
  simp [getURLBody, htok]

/-- Under a failing transport `getURLBody` returns at its third `return`. -/
theorem getURLBody_of_do_error (env : Env) (c c1 : Config) (url : String)
    (req : Request) (e : GoError)
    (htok : env.updateAccessTokenIfExp c = (c1, none))
    (hreq : NewRequest env "GET" url = .ok req)
    (hdo : env.clientDo c1.client (requestFor c1 req) = .error e) :
    getURLBody env c url =
      { cfg := c1, body := none, err := some e, errLocal := some e,
        trace := [Effect.clientDo (requestFor c1 req)] } := by
  simp [getURLBody, htok, hreq, requestFor] at hdo ⊢
  simp [hdo]

/-- Once the transport has returned a response, `getURLBody` reads the body,
picks its results from the read and the status code, and closes the body. -/
theorem getURLBody_of_response (env : Env) (c c1 : Config) (url : String)
    (req : Request) (res : Response)
    (htok : env.updateAccessTokenIfExp c = (c1, none))
    (hreq : NewRequest env "GET" url = .ok req)
    (hdo : env.clientDo c1.client (requestFor c1 req) = .ok res) :
    getURLBody env c url =
      deferredClose res
        (match ReadAll res.Body with
          | (body, some err) =>
            { cfg := c1, body := none, err := some err, errLocal := some err,
              trace := [Effect.clientDo (requestFor c1 req),
                Effect.readAll res.Body body (some err)] }
          | (body, none) =>
            if res.StatusCode = StatusNotFound then
              { cfg := c1, body := none, err := some (errorsNew res.Status),
                errLocal := none,
                trace := [Effect.clientDo (requestFor c1 req),
                  Effect.readAll res.Body body none] }
            else
              { cfg := c1, body := some body, err := none, errLocal := none,
                trace := [Effect.clientDo (requestFor c1 req),
                  Effect.readAll res.Body body none] }) := by
  simp [getURLBody, htok, hreq, requestFor] at hdo ⊢
  simp [hdo]

/-- Once the transport has returned a response, the effects of `getURLBody`
are the transport call, one read of the body and one close of it, whatever
the read and the status code were. -/
theorem getURLBody_trace_of_response (env : Env) (c c1 : Config) (url : String)
    (req : Request) (res : Response)
    (htok : env.updateAccessTokenIfExp c = (c1, none))
    (hreq : NewRequest env "GET" url = .ok req)
    (hdo : env.clientDo c1.client (requestFor c1 req) = .ok res) :
    (getURLBody env c url).trace =
      [Effect.clientDo (requestFor c1 req),
        Effect.readAll res.Body (ReadAll res.Body).1 (ReadAll res.Body).2,
        Effect.close res.Body] := by
  rw [getURLBody_of_response env c c1 url req res htok hreq hdo]
  cases hr : res.Body.readErr with
  | some e => simp [ReadAll, hr, deferredClose]
  | none =>
    by_cases hcode : res.StatusCode = StatusNotFound
    · simp [ReadAll, hr, hcode, deferredClose]
    · simp [ReadAll, hr, hcode, deferredClose]

/-- The request `NewRequest` returns for `GET` has the method `GET` and an
empty header. -/
theorem NewRequest_GET (env : Env) (url : String) (req : Request)
    (hreq : NewRequest env "GET" url = .ok req) :
    req.Method = "GET" ∧ req.Header = [] := by
  cases hu : env.urlParse url with
  | error e => simp [NewRequest, validMethod_GET, hu] at hreq
  | ok u =>
    simp [NewRequest, validMethod_GET, hu] at hreq
    subst hreq
    exact ⟨rfl, rfl⟩

/-- On a request with an empty header, `requestFor` leaves exactly the two
headers of the source. -/
theorem requestFor_header (c : Config) (req : Request) (h : req.Header = []) :
    (requestFor c req).Method = req.Method ∧
      (requestFor c req).URL = req.URL ∧
      (requestFor c req).Header =
        [("Accept", ["application/json"]),
          ("Authorization", ["Bearer " ++ c.oauth.AccessTokenRequest.AccessToken])] := by
  refine ⟨rfl, rfl, ?_⟩
  simp only [requestFor, Header.Set, h, canonical_keys.1, canonical_keys.2, List.filter_nil]
  have hne : (("Authorization" : String) != "Accept") = true := by decide
  simp [List.filter, hne]

/-- Looking up the two keys in a header that holds just them. -/
theorem header_lookup (a b : List String) :
    Header.Values [("Accept", a), ("Authorization", b)] "Authorization" = b ∧
      Header.Values [("Accept", a), ("Authorization", b)] "Accept" = a := by
  constructor
  · unfold Header.Values
    rw [canonical_keys.1]
    rfl
  · unfold Header.Values
    rw [canonical_keys.2]
    rfl

/-! ## The region table -/

/-- C1: for each of the five named regions, `New` returns a `Config` whose
OAuth URL, API URL and locale are the triple of the fixed table, for every
client id, client secret and clock reading. -/
theorem New_region_table (now : Time) (clientID clientSecret : String) :
    (New now clientID clientSecret US).endpoints =
        ("https://us.battle.net", "https://us.api.blizzard.com", "en_US") ∧
      (New now clientID clientSecret EU).endpoints =
        ("https://eu.battle.net", "https://eu.api.blizzard.com", "en_GB") ∧
      (New now clientID clientSecret KR).endpoints =
        ("https://kr.battle.net", "https://kr.api.blizzard.com", "ko_KR") ∧
      (New now clientID clientSecret TW).endpoints =
        ("https://tb.battle.net", "https://tb.api.blizzard.com", "zh_TW") ∧
      (New now clientID clientSecret CN).endpoints =
        ("https://www.battle.net.cn", "https://api.blizzard.com.cn", "zh_CN") := by
  simp [New, Config.endpoints, US, EU, KR, TW, CN]

/-- C2: for every region that is not one of the five named constants, that
is, every integer outside 1..5 (zero and the negative ones too), `New`, a
total function, returns a `Config` with the US triple, the same three strings
as the `Config` it returns for `US`. -/
theorem New_default_is_US (now : Time) (clientID clientSecret : String) (region : Region)
    (h : region ∉ [US, EU, KR, TW, CN] ∨ region < 1 ∨ 5 < region) :
    (New now clientID clientSecret region).endpoints =
        ("https://us.battle.net", "https://us.api.blizzard.com", "en_US") ∧
      (New now clientID clientSecret region).endpoints =
        (New now clientID clientSecret US).endpoints := by
  have hne : region ≠ CN ∧ region ≠ EU ∧ region ≠ KR ∧ region ≠ TW ∧ region ≠ US := by
    rcases h with h | h | h
    · simp only [List.mem_cons, List.mem_singleton, List.not_mem_nil, or_false, not_or] at h
      tauto
    · refine ⟨?_, ?_, ?_, ?_, ?_⟩ <;> intro he <;> rw [he] at h <;> exact absurd h (by decide)
    · refine ⟨?_, ?_, ?_, ?_, ?_⟩ <;> intro he <;> rw [he] at h <;> exact absurd h (by decide)
  obtain ⟨h1, h2, h3, h4, h5⟩ := hne
  simp only [US, EU, KR, TW, CN] at h1 h2 h3 h4 h5
  simp [New, Config.endpoints, US, EU, KR, TW, CN, h1, h2, h3, h4, h5]

/-- Witness of C2 at the unset region 0. -/
theorem New_default_is_US_witness :
    (New 1000 "id" "secret" 0).endpoints =
        ("https://us.battle.net", "https://us.api.blizzard.com", "en_US") ∧
      (New 1000 "id" "secret" 0).endpoints = (New 1000 "id" "secret" US).endpoints :=
  New_default_is_US 1000 "id" "secret" 0 (Or.inr (Or.inl (by decide)))

/-- C9: the five region constants are `US = 1`, `EU = 2`, `KR = 3`, `TW = 4`,
`CN = 5`; they are pairwise distinct and none is the zero region. -/
theorem Region_constants :
    US = 1 ∧ EU = 2 ∧ KR = 3 ∧ TW = 4 ∧ CN = 5 ∧
      [US, EU, KR, TW, CN].Nodup ∧
      regionUnset = 0 ∧ ∀ r ∈ [US, EU, KR, TW, CN], r ≠ regionUnset := by
  refine ⟨rfl, rfl, rfl, rfl, rfl, by decide, rfl, by decide⟩

/-- C10: the `Config` that `New` returns at the instant `T` holds the client
id, the client secret and the region as given, stores no access token, and
has the expiry instant `T`; so at every instant `now` with `T ≤ now` the
refresh test `now >= expiresAt` holds. -/
theorem New_token_absent (T now : Time) (clientID clientSecret : String) (region : Region)
    (h : T ≤ now) :
    (New T clientID clientSecret region).oauth.ClientID = clientID ∧
      (New T clientID clientSecret region).oauth.ClientSecret = clientSecret ∧
      (New T clientID clientSecret region).region = region ∧
      (New T clientID clientSecret region).oauth.AccessTokenRequest.AccessToken = "" ∧
      (New T clientID clientSecret region).oauth.AccessTokenRequest = {} ∧
      (New T clientID clientSecret region).oauth.ExpiresAt = T ∧
      refreshDue (New T clientID clientSecret region).oauth now = true := by
  have hfix : (New T clientID clientSecret region).oauth =
        { ClientID := clientID, ClientSecret := clientSecret, ExpiresAt := T } ∧
      (New T clientID clientSecret region).region = region := by
    unfold New
    simp only
    split_ifs <;> exact ⟨rfl, rfl⟩
  obtain ⟨ho, hr⟩ := hfix
  rw [ho]
  refine ⟨rfl, rfl, hr, rfl, rfl, rfl, ?_⟩
  simpa [refreshDue] using h

/-- Witness of C10 at the very instant of construction. -/
theorem New_token_absent_witness :
    (New 1000 "id" "secret" EU).oauth.AccessTokenRequest.AccessToken = "" ∧
      (New 1000 "id" "secret" EU).oauth.ExpiresAt = 1000 ∧
      refreshDue (New 1000 "id" "secret" EU).oauth 1000 = true :=
  have h := New_token_absent 1000 1000 "id" "secret" EU (by decide)
  ⟨h.2.2.2.1, h.2.2.2.2.2.1, h.2.2.2.2.2.2⟩

/-! ## The authorized GET -/

/-- C3: when the token check succeeds, the request is built, and the
transport returns a response with status code 404 whose body is read without
error, `getURLBody` returns a nil body and a non-nil error whose message is
the status text of the response, whatever the body held and whatever `Close`
returned; the message starts with `404` when the status text is the one
`net/http` derives the code from. -/
theorem getURLBody_not_found (env : Env) (c c1 : Config) (url : String)
    (req : Request) (res : Response)
    (htok : env.updateAccessTokenIfExp c = (c1, none))
    (hreq : NewRequest env "GET" url = .ok req)
    (hdo : env.clientDo c1.client (requestFor c1 req) = .ok res)
    (hcode : res.StatusCode = 404)
    (hread : (ReadAll res.Body).2 = none) :
    (getURLBody env c url).body = none ∧
      (getURLBody env c url).err = some (errorsNew res.Status) ∧
      (getURLBody env c url).err ≠ none ∧
      (∀ e, (getURLBody env c url).err = some e → e.msg = res.Status) ∧
      (statusLineOf res →
        ∀ e, (getURLBody env c url).err = some e → "404".toList <+: e.msg.toList) := by
  have hx := getURLBody_of_response env c c1 url req res htok hreq hdo
  have hr : ReadAll res.Body = ((ReadAll res.Body).1, none) := by
    rw [← hread]
  rw [hr] at hx
  simp only [StatusNotFound, hcode, if_true] at hx
  rw [hx]
  refine ⟨rfl, rfl, by simp [deferredClose], ?_, ?_⟩
  · intro e he
    simp only [deferredClose, Option.some.injEq] at he
    rw [← he]
    rfl
  · intro hs e he
    simp only [deferredClose, Option.some.injEq] at he
    rw [← he]
    unfold statusLineOf at hs
    rw [hcode] at hs
    exact hs

/-- Witness of C3: a 404 with a body and a failing `Close`. -/
theorem getURLBody_not_found_witness :
    (getURLBody (envWith (grantToken "tok") (.ok res404)) cfg0
        "https://eu.api.blizzard.com/data").body = none ∧
      (getURLBody (envWith (grantToken "tok") (.ok res404)) cfg0
        "https://eu.api.blizzard.com/data").err = some (errorsNew "404 Not Found") ∧
      "404".toList <+: (errorsNew "404 Not Found").msg.toList :=
  have h := getURLBody_not_found (envWith (grantToken "tok") (.ok res404)) cfg0 cfg1
    "https://eu.api.blizzard.com/data" req0 res404 rfl rfl rfl rfl rfl
  ⟨h.1, h.2.1, h.2.2.2.2 (by decide) (errorsNew "404 Not Found") h.2.1⟩

/-- C4: when the token check succeeds, the request is built, and the
transport returns a response whose body is read without error, then with a
status code other than 404 `getURLBody` returns the bytes of the body as read
and a nil error, whatever `Close` returned; and it returns an error exactly
when the status code is 404. -/
theorem getURLBody_passthrough (env : Env) (c c1 : Config) (url : String)
    (req : Request) (res : Response)
    (htok : env.updateAccessTokenIfExp c = (c1, none))
    (hreq : NewRequest env "GET" url = .ok req)
    (hdo : env.clientDo c1.client (requestFor c1 req) = .ok res)
    (hread : (ReadAll res.Body).2 = none) :
    (res.StatusCode ≠ 404 →
        (getURLBody env c url).body = some res.Body.content ∧
          (getURLBody env c url).err = none) ∧
      ((getURLBody env c url).err ≠ none ↔ res.StatusCode = 404) := by
  have hx := getURLBody_of_response env c c1 url req res htok hreq hdo
  have hr : ReadAll res.Body = (res.Body.content, none) := by
    unfold ReadAll at hread ⊢
    cases he : res.Body.readErr with
    | none => rfl
    | some e => simp [he] at hread
  rw [hr] at hx
  simp only [StatusNotFound] at hx
  rw [hx]
  by_cases hcode : res.StatusCode = 404
  · simp [hcode, deferredClose]
  · simp [hcode, deferredClose]

/-- Witness of C4: a 500 with a body and a failing `Close`. -/
theorem getURLBody_passthrough_witness :
    (getURLBody (envWith (grantToken "tok") (.ok res500)) cfg0
        "https://eu.api.blizzard.com/data").body = some [111, 111, 112, 115] ∧
      (getURLBody (envWith (grantToken "tok") (.ok res500)) cfg0
        "https://eu.api.blizzard.com/data").err = none :=
  (getURLBody_passthrough (envWith (grantToken "tok") (.ok res500)) cfg0 cfg1
    "https://eu.api.blizzard.com/data" req0 res500 rfl rfl rfl rfl).1 (by decide)

/-- C5: when the token check fails with `e`, `getURLBody` returns a nil body
and the error `e`, and performs no effect at all: the transport is invoked
zero times and no request is sent. -/
theorem getURLBody_token_failure (env : Env) (c c1 : Config) (url : String) (e : GoError)
    (htok : env.updateAccessTokenIfExp c = (c1, some e)) :
    (getURLBody env c url).body = none ∧
      (getURLBody env c url).err = some e ∧
      countDo (getURLBody env c url).trace = 0 ∧
      requestsSent (getURLBody env c url).trace = [] ∧
      (getURLBody env c url).trace = [] := by
  rw [getURLBody_of_token_error env c c1 url e htok]
  exact ⟨rfl, rfl, rfl, rfl, rfl⟩

/-- Witness of C5: a token check that fails although the transport would
answer. -/
theorem getURLBody_token_failure_witness :
    (getURLBody (envWith (denyToken ⟨"oauth: 401"⟩) (.ok res500)) cfg0
        "https://eu.api.blizzard.com/data").err = some ⟨"oauth: 401"⟩ ∧
      countDo (getURLBody (envWith (denyToken ⟨"oauth: 401"⟩) (.ok res500)) cfg0
        "https://eu.api.blizzard.com/data").trace = 0 :=
  have h := getURLBody_token_failure (envWith (denyToken ⟨"oauth: 401"⟩) (.ok res500)) cfg0 cfg0
    "https://eu.api.blizzard.com/data" ⟨"oauth: 401"⟩ rfl
  ⟨h.2.1, h.2.2.1⟩

/-- C6: when the token check succeeds, the request is built, and the
transport fails with `e`, `getURLBody` returns a nil body and the error `e`,
and the transport has been invoked exactly once. -/
theorem getURLBody_transport_failure (env : Env) (c c1 : Config) (url : String)
    (req : Request) (e : GoError)
    (htok : env.updateAccessTokenIfExp c = (c1, none))
    (hreq : NewRequest env "GET" url = .ok req)
    (hdo : env.clientDo c1.client (requestFor c1 req) = .error e) :
    (getURLBody env c url).body = none ∧
      (getURLBody env c url).err = some e ∧
      countDo (getURLBody env c url).trace = 1 ∧
      requestsSent (getURLBody env c url).trace = [requestFor c1 req] := by
  rw [getURLBody_of_do_error env c c1 url req e htok hreq hdo]
  exact ⟨rfl, rfl, rfl, rfl⟩

/-- Witness of C6: a transport that times out. -/
theorem getURLBody_transport_failure_witness :
    (getURLBody (envWith (grantToken "tok") (.error ⟨"timeout"⟩)) cfg0
        "https://eu.api.blizzard.com/data").err = some ⟨"timeout"⟩ ∧
      countDo (getURLBody (envWith (grantToken "tok") (.error ⟨"timeout"⟩)) cfg0
        "https://eu.api.blizzard.com/data").trace = 1 :=
  have h := getURLBody_transport_failure (envWith (grantToken "tok") (.error ⟨"timeout"⟩))
    cfg0 cfg1 "https://eu.api.blizzard.com/data" req0 ⟨"timeout"⟩ rfl rfl rfl
  ⟨h.2.1, h.2.2.1⟩

/-- C7, as amended: whenever the transport returned a response, on every
way out of `getURLBody` (body returned, 404, or failed read) the effects on
the body of that response are one `ReadAll` followed by one `Close`, the
last effect before the call returns; on the ways out where the read
succeeds the body is fully drained, and where the read fails with `e` the
bytes consumed are those delivered before `e`. -/
theorem getURLBody_closes_body (env : Env) (c c1 : Config) (url : String)
    (req : Request) (res : Response)
    (htok : env.updateAccessTokenIfExp c = (c1, none))
    (hreq : NewRequest env "GET" url = .ok req)
    (hdo : env.clientDo c1.client (requestFor c1 req) = .ok res) :
    countClose (getURLBody env c url).trace = 1 ∧
      (getURLBody env c url).trace.getLast? = some (Effect.close res.Body) ∧
      bodyEffects (getURLBody env c url).trace =
        [Effect.readAll res.Body (ReadAll res.Body).1 (ReadAll res.Body).2,
          Effect.close res.Body] ∧
      (res.Body.readErr = none → drained res.Body (getURLBody env c url).trace) ∧
      (res.Body.readErr = none →
        bytesRead res.Body (getURLBody env c url).trace = res.Body.content) ∧
      (∀ e, res.Body.readErr = some e →
        bytesRead res.Body (getURLBody env c url).trace =
            res.Body.content.take res.Body.readErrAt ∧
          (getURLBody env c url).err = some e ∧
          ¬ drained res.Body (getURLBody env c url).trace) := by
  have ht := getURLBody_trace_of_response env c c1 url req res htok hreq hdo
  have hx := getURLBody_of_response env c c1 url req res htok hreq hdo
  rw [ht]
  refine ⟨rfl, rfl, rfl, ?_, ?_, ?_⟩
  · intro hr
    simp [drained, ReadAll, hr]
  · intro hr
    simp [bytesRead, ReadAll, hr]
  · intro e hr
    refine ⟨?_, ?_, ?_⟩
    · simp [bytesRead, ReadAll, hr]
    · rw [hx]
      simp [ReadAll, hr, deferredClose]
    · simp [drained, ReadAll, hr]

/-- Witness of C7: a 404 whose body is read to its end is drained and closed
once. -/
theorem getURLBody_closes_body_witness :
    countClose (getURLBody (envWith (grantToken "tok") (.ok res404)) cfg0
        "https://eu.api.blizzard.com/data").trace = 1 ∧
      drained res404.Body (getURLBody (envWith (grantToken "tok") (.ok res404)) cfg0
        "https://eu.api.blizzard.com/data").trace :=
  have h := getURLBody_closes_body (envWith (grantToken "tok") (.ok res404)) cfg0 cfg1
    "https://eu.api.blizzard.com/data" req0 res404 rfl rfl rfl
  ⟨h.1, h.2.2.2.1 rfl⟩

/-- C7 as stated fails: the token check succeeds, the request is built and
the transport returns a response whose body of two bytes fails after the
first; `getURLBody` returns the read error having consumed one byte, so the
body is closed once but not fully drained. -/
theorem getURLBody_read_failure_not_drained :
    (envWith (grantToken "tok") (.ok resCut)).updateAccessTokenIfExp cfg0 = (cfg1, none) ∧
      NewRequest (envWith (grantToken "tok") (.ok resCut)) "GET"
        "https://eu.api.blizzard.com/data" = .ok req0 ∧
      (envWith (grantToken "tok") (.ok resCut)).clientDo cfg1.client
        (requestFor cfg1 req0) = .ok resCut ∧
      (getURLBody (envWith (grantToken "tok") (.ok resCut)) cfg0
        "https://eu.api.blizzard.com/data").err = some ⟨"unexpected EOF"⟩ ∧
      countClose (getURLBody (envWith (grantToken "tok") (.ok resCut)) cfg0
        "https://eu.api.blizzard.com/data").trace = 1 ∧
      bytesRead resCut.Body (getURLBody (envWith (grantToken "tok") (.ok resCut)) cfg0
        "https://eu.api.blizzard.com/data").trace = [123] ∧
      resCut.Body.content = [123, 125] ∧
      ¬ drained resCut.Body (getURLBody (envWith (grantToken "tok") (.ok resCut)) cfg0
        "https://eu.api.blizzard.com/data").trace := by
  refine ⟨rfl, rfl, rfl, rfl, rfl, ?_, rfl, ?_⟩
  · decide
  · decide

/-- C8: when the token check succeeds and the request is built, `getURLBody`
hands exactly one request to the transport; its method is `GET`, its URL is
the parsed argument, its `Authorization` header is `Bearer ` followed by the
access token of the `Config` as the token check left it, and its `Accept`
header is `application/json`. -/
theorem getURLBody_request (env : Env) (c c1 : Config) (url : String) (req : Request)
    (htok : env.updateAccessTokenIfExp c = (c1, none))
    (hreq : NewRequest env "GET" url = .ok req) :
    ∃ sent : Request,
      requestsSent (getURLBody env c url).trace = [sent] ∧
        countDo (getURLBody env c url).trace = 1 ∧
        sent.Method = "GET" ∧
        sent.URL = req.URL ∧
        Header.Values sent.Header "Authorization" =
          ["Bearer " ++ c1.oauth.AccessTokenRequest.AccessToken] ∧
        Header.Get sent.Header "Authorization" =
          "Bearer " ++ c1.oauth.AccessTokenRequest.AccessToken ∧
        Header.Values sent.Header "Accept" = ["application/json"] ∧
        Header.Get sent.Header "Accept" = "application/json" := by
  obtain ⟨hm, hh⟩ := NewRequest_GET env url req hreq
  obtain ⟨fm, fu, fh⟩ := requestFor_header c1 req hh
  refine ⟨requestFor c1 req, ?_, ?_, by rw [fm, hm], fu, ?_, ?_, ?_, ?_⟩
  · cases hdo : env.clientDo c1.client (requestFor c1 req) with
    | error e =>
      rw [getURLBody_of_do_error env c c1 url req e htok hreq hdo]
      rfl
    | ok res =>
      rw [getURLBody_trace_of_response env c c1 url req res htok hreq hdo]
      rfl
  · cases hdo : env.clientDo c1.client (requestFor c1 req) with
    | error e =>
      rw [getURLBody_of_do_error env c c1 url req e htok hreq hdo]
      rfl
    | ok res =>
      rw [getURLBody_trace_of_response env c c1 url req res htok hreq hdo]
      rfl
  · rw [fh]; exact (header_lookup _ _).1
  · rw [fh, Header.Get, (header_lookup _ _).1]; rfl
  · rw [fh]; exact (header_lookup _ _).2
  · rw [fh, Header.Get, (header_lookup _ _).2]; rfl

/-- Witness of C8: the token is the one installed by the check, not the empty
one the `Config` held before it. -/
theorem getURLBody_request_witness :
    cfg0.oauth.AccessTokenRequest.AccessToken = "" ∧
      ∃ sent : Request,
        requestsSent (getURLBody (envWith (grantToken "tok") (.ok res500)) cfg0
          "https://eu.api.blizzard.com/data").trace = [sent] ∧
        sent.Method = "GET" ∧
        Header.Get sent.Header "Authorization" = "Bearer tok" ∧
        Header.Get sent.Header "Accept" = "application/json" :=
  have h := getURLBody_request (envWith (grantToken "tok") (.ok res500)) cfg0 cfg1
    "https://eu.api.blizzard.com/data" req0 rfl rfl
  ⟨rfl, h.elim fun sent hs => ⟨sent, hs.1, hs.2.2.1, hs.2.2.2.2.2.1, hs.2.2.2.2.2.2.2⟩⟩

end Blizzard
